import Mathlib

/-!
Verification of `src/static/js/app.js` (vehicle-tracker client script).

The script is shallowly embedded: JS strings handled character-wise are
`List Char`; `localStorage` is a function store `String → Option String`;
event handlers are pure state transformers; the debounce timer is a
single-slot `Option` deadline threaded through an event fold.
-/

namespace VehicleTracker

/-! ## JS string primitives

Models of the external string methods the script calls. `toLowerCase` is
modelled on its ASCII fragment (the only part the properties depend on),
`trim` drops whitespace from both ends, `includes` is substring search. -/

abbrev JSStr := List Char

/-- The case mapping of JS `toLowerCase` on its ASCII fragment. -/
def upperToLowerTable : List (Char × Char) :=
  [('A', 'a'), ('B', 'b'), ('C', 'c'), ('D', 'd'), ('E', 'e'), ('F', 'f'),
   ('G', 'g'), ('H', 'h'), ('I', 'i'), ('J', 'j'), ('K', 'k'), ('L', 'l'),
   ('M', 'm'), ('N', 'n'), ('O', 'o'), ('P', 'p'), ('Q', 'q'), ('R', 'r'),
   ('S', 's'), ('T', 't'), ('U', 'u'), ('V', 'v'), ('W', 'w'), ('X', 'x'),
   ('Y', 'y'), ('Z', 'z')]

/-- ASCII fragment of JS `String.prototype.toLowerCase`, per character. -/
def jsCharToLower (c : Char) : Char :=
  match upperToLowerTable.find? (fun p => p.1 == c) with
  | some p => p.2
  | none => c

/-- JS `toLowerCase` on a whole string. -/
def jsToLower (s : JSStr) : JSStr := s.map jsCharToLower

/-- JS `String.prototype.trim`: drop whitespace at both ends. -/
def jsTrim (s : JSStr) : JSStr :=
  ((s.dropWhile Char.isWhitespace).reverse.dropWhile Char.isWhitespace).reverse

/-- JS `String.prototype.includes`: substring containment. -/
def jsIncludes (hay needle : JSStr) : Bool :=
  needle.isPrefixOf hay ||
    match hay with
    | [] => false
    | _ :: t => jsIncludes t needle

/-! ## Durable key-value store (`localStorage`) -/

/-- The origin-scoped key-value store behind `localStorage`. -/
def Store : Type := String → Option String

/-- `localStorage.getItem` (absent key reads as `null`, here `none`). -/
def getItem (st : Store) (k : String) : Option String := st k

/-- `localStorage.setItem`. -/
def setItem (st : Store) (k v : String) : Store :=
  fun q => if q = k then some v else st q

/-- `localStorage.removeItem`. -/
def removeItem (st : Store) (k : String) : Store :=
  fun q => if q = k then none else st q

/-- A store with no entries. -/
def emptyStore : Store := fun _ => none

/-! ## Autosave binder (`initializeAutoSave`, app.js lines 108-134)

A form field is its `name` IDL attribute (the empty string when the HTML
attribute is absent) together with its current `value`. -/

structure FormField where
  name : String
  value : String
deriving DecidableEq

/-- Key derivation `autosave_` + `input.name` (template literal, line 116/123/130). -/
def autosaveKey (f : FormField) : String := "autosave_" ++ f.name

/-- JS truthiness of a string: `""` is falsy, everything else truthy. -/
def jsTruthy (s : String) : Bool := s != ""

/-- Load-time restore (lines 116-119): `if (savedValue && !input.value) input.value = savedValue`. -/
def restoreValue (saved : Option String) (current : String) : String :=
  match saved with
  | none => current
  | some s => if jsTruthy s && !(jsTruthy current) then s else current

/-- The restore step applied to one field against the store. -/
def restoreField (st : Store) (f : FormField) : FormField :=
  { f with value := restoreValue (getItem st (autosaveKey f)) f.value }

/-- The spec's wording of restore-on-load: set the field to the stored value
when a stored value exists and the field is empty; otherwise leave it. -/
def restoreValueSpec (saved : Option String) (current : String) : String :=
  match saved with
  | none => current
  | some s => if current = "" then s else current

/-- Persist-on-change handler body (lines 122-124): write the field's current
value under its derived key, unconditionally. -/
def persistField (st : Store) (f : FormField) : Store :=
  setItem st (autosaveKey f) f.value

/-- Clear-on-submit handler body (lines 128-132): remove every field's entry. -/
def clearAutosave (fields : List FormField) (st : Store) : Store :=
  fields.foldl (fun s f => removeItem s (autosaveKey f)) st

/-! ## Submit-event dispatch (validation handler + autosave clear, C2)

Both listeners are registered on the same form element (the validation one
in `initializeFormValidation`, lines 39-70, before the autosave one, lines
128-132). Per DOM dispatch, `stopPropagation` only stops propagation to
other elements; listeners already attached to the same target still run
(only `stopImmediatePropagation`, which the script never calls, would stop
them). So the clear handler runs whatever the validation outcome. -/

structure SubmitEvent where
  defaultPrevented : Bool
  propagationStopped : Bool
deriving DecidableEq

/-- The validation submit listener (lines 39-48): on an invalid form it
prevents the default submission and stops propagation. The button-loading
branch touches only the DOM, not the store, and is omitted. -/
def validationSubmitHandler (formValid : Bool) (ev : SubmitEvent) : SubmitEvent :=
  if !formValid then { ev with defaultPrevented := true, propagationStopped := true } else ev

/-- Dispatch of one `submit` event on an autosave form: the validation
listener runs first, then the autosave clear listener runs on the same
target regardless of the flags the first one set. -/
def dispatchSubmit (formValid : Bool) (fields : List FormField) (st : Store) :
    SubmitEvent × Store :=
  let ev := validationSubmitHandler formValid
    { defaultPrevented := false, propagationStopped := false }
  (ev, clearAutosave fields st)

/-! ## Failing store writes (C6)

`localStorage.setItem` may throw (quota exceeded / store unavailable). The
store is paired with a failure flag; a write against a failing store raises
the exception. The persist-on-change handler (lines 122-124) wraps the
write in no try/catch, so the handler's outcome is that of the write. -/

structure JsStore where
  data : Store
  failing : Bool

/-- `localStorage.setItem` on a possibly-failing store. -/
def setItemE (st : JsStore) (k v : String) : Except String JsStore :=
  if st.failing then .error "QuotaExceededError"
  else .ok { st with data := setItem st.data k v }

/-- The `input` listener body of the autosave binder (lines 122-124),
exactly the bare `setItem` call. -/
def autosaveInputHandler (st : JsStore) (f : FormField) : Except String JsStore :=
  setItemE st (autosaveKey f) f.value

/-- Text of the notification the global error guard shows (line 339). -/
def errorNotificationText : String :=
  "An unexpected error occurred. Please refresh the page and try again."

/-- Page-level outcome of one `input` event on an autosave field: an
exception escaping the handler reaches the `window` error listener
(lines 337-340), which shows the generic notification; the store keeps
its pre-event contents and the page keeps running. -/
def pageInputEvent (st : JsStore) (f : FormField) : JsStore × Option String :=
  match autosaveInputHandler st f with
  | .ok st2 => (st2, none)
  | .error _ => (st, some errorNotificationText)

/-! ## Search filter (`performSearch` / `updateSearchResultCount`, lines 159-214) -/

/-- A `[data-searchable]` element: its flattened text and its inline
`style.display` value (`""` restores the stylesheet default, `"none"` hides). -/
structure SElem where
  textContent : JSStr
  display : String
deriving DecidableEq

/-- The `.search-count` status element near the input. -/
structure SearchCount where
  text : String
  display : String
deriving DecidableEq

/-- The status text `Showing X of Y results` (line 209). -/
def countText (visible total : Nat) : String :=
  "Showing " ++ toString visible ++ " of " ++ toString total ++ " results"

/-- `updateSearchResultCount` (lines 199-214): show the count while the
input's trimmed text is truthy, otherwise hide the status element. -/
def updateSearchResultCount (inputValue : JSStr) (visible total : Nat)
    (c : SearchCount) : SearchCount :=
  match jsTrim inputValue with
  | [] => { c with display := "none" }
  | _ :: _ => { text := countText visible total, display := "block" }

/-- Line 168: `!searchTerm || text.includes(searchTerm)` on the element's
lower-cased text. -/
def elemVisible (searchTerm : JSStr) (el : SElem) : Bool :=
  searchTerm.isEmpty || jsIncludes (jsToLower el.textContent) searchTerm

/-- Count of elements whose `style.display` is not `"none"` (line 174). -/
def visibleCount (elems : List SElem) : Nat :=
  (elems.filter (fun el => el.display != "none")).length

/-- `performSearch` (lines 159-176): normalize the input's text
(`toLowerCase().trim()`), bail out when the container has no searchable
elements, otherwise set each element's display and refresh the count. -/
def performSearch (inputValue : JSStr) (elems : List SElem) (c : SearchCount) :
    List SElem × SearchCount :=
  let searchTerm := jsTrim (jsToLower inputValue)
  if elems.length = 0 then (elems, c)
  else
    let elems2 := elems.map (fun el =>
      { el with display := if elemVisible searchTerm el then "" else "none" })
    (elems2, updateSearchResultCount inputValue (visibleCount elems2) elems2.length c)

/-! ## Debounce (`initializeSearch`, lines 140-150)

Each search input owns one timer slot (`searchTimeout`). An `input` event
runs `clearTimeout` on the slot and then `setTimeout` of a fresh 300 ms
timer whose callback reads the input's text at fire time. The model folds
over the input events in time order; a pending timer whose deadline has
passed by the time the next event arrives has fired (recording the text
current at its deadline), otherwise the event cancels it. -/

def debounceDelay : Nat := 300

/-- One `input` event on a search input: its dispatch time and the input's
text right after it. -/
structure DebEvent where
  time : Nat
  value : JSStr
deriving DecidableEq

/-- Fold state: pending deadline, current input text, fired filter passes
(fire time paired with the text the pass read). -/
def debStep (s : Option Nat × JSStr × List (Nat × JSStr)) (e : DebEvent) :
    Option Nat × JSStr × List (Nat × JSStr) :=
  let fired :=
    match s.1 with
    | some d => if d ≤ e.time then s.2.2 ++ [(d, s.2.1)] else s.2.2
    | none => s.2.2
  (some (e.time + debounceDelay), e.value, fired)

/-- All filter passes a finite event sequence produces, the final pending
timer included (it fires once the input goes quiet). -/
def runDebounce (events : List DebEvent) : List (Nat × JSStr) :=
  let s := events.foldl debStep (none, [], [])
  match s.1 with
  | some d => s.2.2 ++ [(d, s.2.1)]
  | none => s.2.2

/-- The last of `e :: es`. -/
def lastEvent (e : DebEvent) (es : List DebEvent) : DebEvent :=
  es.foldl (fun _ b => b) e

/-! ## Table sort (`sortTable`, lines 291-307)

A body row is the list of its cells' text contents. `rows.sort(cmp)`
followed by re-appending every row leaves the body holding exactly the
sorted rows; JS `Array.prototype.sort` is modelled by the stable
`List.mergeSort`. `localeCompare` (an `Intl` collaborator) is modelled as
code-point lexicographic comparison; `parseFloat` on the digit-stripped
cell text is modelled over `ℚ`, `none` standing for `NaN` (a comparator
returning `NaN` leaves the engine's order unconstrained; the model keeps
the current order, as any choice yields the same permutation property). -/

abbrev TableRow := List JSStr

/-- `row.cells[i].textContent.trim()` (lines 296-297). -/
def cellText (r : TableRow) (i : Nat) : JSStr := jsTrim (r.getD i [])

/-- The regex replace `[^0-9.-]` → `""` (line 300). -/
def stripNonNumeric (s : JSStr) : JSStr :=
  s.filter (fun c => c.isDigit || c = '.' || c = '-')

/-- Digit run: accumulated value, number of digits read, rest. -/
def readDigits : List Char → Nat → Nat → Nat × Nat × List Char
  | c :: cs, acc, n =>
    if c.isDigit then readDigits cs (acc * 10 + (c.toNat - 48)) (n + 1)
    else (acc, n, c :: cs)
  | [], acc, n => (acc, n, [])

/-- JS `parseFloat` on a string already stripped to `[0-9.-]`: optional
leading minus, integer digits, optional fraction; trailing junk ignored;
`none` is `NaN` (no digits at all). -/
def parseFloatQ (s : JSStr) : Option ℚ :=
  let p : Bool × JSStr := match s with
    | '-' :: r => (true, r)
    | r => (false, r)
  let ip := readDigits p.2 0 0
  let fp : Nat × Nat × List Char := match ip.2.2 with
    | '.' :: r => readDigits r 0 0
    | r => (0, 0, r)
  if ip.2.1 = 0 ∧ fp.2.1 = 0 then none
  else
    let mag : ℚ := (ip.1 : ℚ) + (fp.1 : ℚ) / ((10 : ℚ) ^ fp.2.1)
    some (if p.1 then -mag else mag)

/-- Code-point lexicographic `≤` on char lists (model of `localeCompare ≤ 0`). -/
def lexLe : JSStr → JSStr → Bool
  | [], _ => true
  | _ :: _, [] => false
  | a :: as, b :: bs => if a < b then true else if b < a then false else lexLe as bs

/-- The comparator of lines 295-304 as a `≤` test for the sort. -/
def rowLe (isNumeric : Bool) (i : Nat) (a b : TableRow) : Bool :=
  if isNumeric then
    match parseFloatQ (stripNonNumeric (cellText a i)),
          parseFloatQ (stripNonNumeric (cellText b i)) with
    | some x, some y => decide (x - y ≤ 0)
    | _, _ => true
  else lexLe (cellText a i) (cellText b i)

/-- `sortTable` (lines 291-307): the body rows after sorting by column `i`. -/
def sortTable (rows : List TableRow) (i : Nat) (isNumeric : Bool) : List TableRow :=
  rows.mergeSort (rowLe isNumeric i)

/-! ## CSV export (`exportTableToCSV`, lines 310-334) and a standard reader -/

/-- `text.replace(/"/g, Chr(34)+Chr(34))`: double every quote (line 321). -/
def csvDouble : JSStr → JSStr
  | [] => []
  | c :: cs => if c = '"' then '"' :: '"' :: csvDouble cs else c :: csvDouble cs

/-- One serialized field (lines 318-323): quote-and-double when the trimmed
text contains a comma or a quote, else the text itself. -/
def cellToCSV (text : JSStr) : JSStr :=
  if text.contains ',' || text.contains '"' then '"' :: (csvDouble text ++ ['"'])
  else text

/-- One serialized row: fields joined with commas (line 324). -/
def rowToCSV : List JSStr → JSStr
  | [] => []
  | [t] => cellToCSV t
  | t :: ts => cellToCSV t ++ ',' :: rowToCSV ts

/-- A row from raw cell texts: each is trimmed first (line 318). -/
def exportRowToCSV (cellTexts : List JSStr) : JSStr :=
  rowToCSV (cellTexts.map jsTrim)

/-- Rows joined with newlines (line 325). -/
def exportTableToCSV : List (List JSStr) → JSStr
  | [] => []
  | [r] => exportRowToCSV r
  | r :: rs => exportRowToCSV r ++ '\n' :: exportTableToCSV rs

/-- Modelled from the spec: a standard CSV reader for one line (RFC-4180
style), the reference the spec's round-trip property appeals to and no part
of the repository. State: remaining input, inside-quotes flag, current
field (reversed). A quote opens or closes a field, a doubled quote inside
a quoted field is a literal quote, a comma outside quotes separates fields. -/
def parseCSVAux : JSStr → Bool → JSStr → List JSStr
  | [], _, cur => [cur.reverse]
  | c :: rest, true, cur =>
    if c = '"' then
      match rest with
      | r :: rest2 =>
        if r = '"' then parseCSVAux rest2 true ('"' :: cur)
        else parseCSVAux (r :: rest2) false cur
      | [] => [cur.reverse]
    else parseCSVAux rest true (c :: cur)
  | c :: rest, false, cur =>
    if c = ',' then cur.reverse :: parseCSVAux rest false []
    else if c = '"' then parseCSVAux rest true cur
    else parseCSVAux rest false (c :: cur)

/-- Parse one CSV line into its fields. -/
def parseCSVLine (s : JSStr) : List JSStr := parseCSVAux s false []

/-! ## Helper lemmas -/

theorem isWhitespace_jsCharToLower (c : Char) :
    (jsCharToLower c).isWhitespace = c.isWhitespace := by
  unfold jsCharToLower
  cases hfind : upperToLowerTable.find? (fun p => p.1 == c) with
  | none => rfl
  | some p =>
    have hp : p ∈ upperToLowerTable := List.mem_of_find?_eq_some hfind
    have hc : p.1 = c := by
      have := List.find?_some hfind
      simpa using this
    have hknown : ∀ q ∈ upperToLowerTable, q.1.isWhitespace = false ∧ q.2.isWhitespace = false := by
      decide
    obtain ⟨h1, h2⟩ := hknown p hp
    rw [h2, ← hc, h1]

theorem dropWhile_ws_map (l : List Char) :
    (l.map jsCharToLower).dropWhile Char.isWhitespace
      = (l.dropWhile Char.isWhitespace).map jsCharToLower := by
  induction l with
  | nil => rfl
  | cons c cs ih =>
    simp only [List.map_cons, List.dropWhile_cons, isWhitespace_jsCharToLower]
    cases h : c.isWhitespace <;> simp [h, ih]

theorem jsTrim_jsToLower (s : JSStr) : jsTrim (jsToLower s) = jsToLower (jsTrim s) := by
  unfold jsTrim jsToLower
  rw [dropWhile_ws_map, ← List.map_reverse, dropWhile_ws_map, ← List.map_reverse]

theorem jsTrim_jsToLower_nil_iff (s : JSStr) : jsTrim (jsToLower s) = [] ↔ jsTrim s = [] := by
  rw [jsTrim_jsToLower]
  unfold jsToLower
  exact List.map_eq_nil_iff

theorem getItem_setItem_self (st : Store) (k v : String) :
    getItem (setItem st k v) k = some v := by
  simp [getItem, setItem]

theorem getItem_removeItem_self (st : Store) (k : String) :
    getItem (removeItem st k) k = none := by
  simp [getItem, removeItem]

theorem getItem_clear_of_none (fields : List FormField) (st : Store) (k : String)
    (h : getItem st k = none) : getItem (clearAutosave fields st) k = none := by
  induction fields generalizing st with
  | nil => exact h
  | cons f fs ih =>
    show getItem (clearAutosave fs (removeItem st (autosaveKey f))) k = none
    apply ih
    simp only [getItem, removeItem] at *
    split_ifs <;> simp [h]

theorem getItem_clearAutosave (fields : List FormField) (st : Store) (f : FormField)
    (hf : f ∈ fields) : getItem (clearAutosave fields st) (autosaveKey f) = none := by
  induction fields generalizing st with
  | nil => cases hf
  | cons g gs ih =>
    show getItem (clearAutosave gs (removeItem st (autosaveKey g))) (autosaveKey f) = none
    rcases List.mem_cons.mp hf with rfl | hf2
    · exact getItem_clear_of_none gs _ _ (getItem_removeItem_self st _)
    · exact ih _ hf2

theorem restoreValue_some_empty (v : String) : restoreValue (some v) "" = v := by
  by_cases h : v = "" <;> simp [restoreValue, jsTruthy, h]

theorem performSearch_cons (input : JSStr) (e : SElem) (es : List SElem) (c : SearchCount) :
    performSearch input (e :: es) c
      = ((e :: es).map (fun el =>
            { el with display :=
                if elemVisible (jsTrim (jsToLower input)) el then "" else "none" }),
         updateSearchResultCount input
           (visibleCount ((e :: es).map (fun el =>
              { el with display :=
                  if elemVisible (jsTrim (jsToLower input)) el then "" else "none" })))
           ((e :: es).length) c) := by
  simp [performSearch]

theorem visibleCount_map (term : JSStr) (l : List SElem) :
    visibleCount (l.map (fun el =>
        { el with display := if elemVisible term el then "" else "none" }))
      = (l.filter (elemVisible term)).length := by
  induction l with
  | nil => rfl
  | cons x xs ih =>
    simp only [List.map_cons, visibleCount, List.filter_cons] at *
    cases hv : elemVisible term x <;> simp [hv] <;> simp [ih]

theorem updateCount_show (input : JSStr) (v t : Nat) (c : SearchCount)
    (h : jsTrim input ≠ []) :
    updateSearchResultCount input v t c = { text := countText v t, display := "block" } := by
  unfold updateSearchResultCount
  split
  · next heq => exact absurd heq h
  · rfl

theorem updateCount_hide (input : JSStr) (v t : Nat) (c : SearchCount)
    (h : jsTrim input = []) :
    updateSearchResultCount input v t c = { c with display := "none" } := by
  unfold updateSearchResultCount
  rw [h]

theorem debounce_foldl (es : List DebEvent) :
    ∀ (e : DebEvent) (fired : List (Nat × JSStr)),
      List.Chain' (fun a b => b.time < a.time + debounceDelay) (e :: es) →
      es.foldl debStep (some (e.time + debounceDelay), e.value, fired)
        = (some ((lastEvent e es).time + debounceDelay), (lastEvent e es).value, fired) := by
  induction es with
  | nil => intro e fired _; rfl
  | cons g gs ih =>
    intro e fired h
    obtain ⟨hhead, htail⟩ := List.chain'_cons'.mp h
    have hg : g.time < e.time + debounceDelay := hhead g rfl
    have hstep : debStep (some (e.time + debounceDelay), e.value, fired) g
        = (some (g.time + debounceDelay), g.value, fired) := by
      simp only [debStep]
      rw [if_neg (by omega)]
    rw [List.foldl_cons, hstep]
    exact ih g fired htail

theorem parseCSVAux_nil (b : Bool) (cur : JSStr) : parseCSVAux [] b cur = [cur.reverse] := by
  cases b <;> rfl

theorem parse_true_qq (rest cur : JSStr) :
    parseCSVAux ('"' :: '"' :: rest) true cur = parseCSVAux rest true ('"' :: cur) := rfl

theorem parse_true_q_end (cur : JSStr) : parseCSVAux ['"'] true cur = [cur.reverse] := rfl

theorem parse_true_q_close (r : Char) (rest2 cur : JSStr) (h : r ≠ '"') :
    parseCSVAux ('"' :: r :: rest2) true cur = parseCSVAux (r :: rest2) false cur := by
  show (if r = '"' then parseCSVAux rest2 true ('"' :: cur)
        else parseCSVAux (r :: rest2) false cur) = parseCSVAux (r :: rest2) false cur
  exact if_neg h

theorem parse_true_other (c : Char) (rest cur : JSStr) (h : c ≠ '"') :
    parseCSVAux (c :: rest) true cur = parseCSVAux rest true (c :: cur) := by
  cases rest with
  | nil =>
    show (if c = '"' then [cur.reverse] else parseCSVAux [] true (c :: cur))
      = parseCSVAux [] true (c :: cur)
    exact if_neg h
  | cons r rest2 =>
    show (if c = '"' then
            (if r = '"' then parseCSVAux rest2 true ('"' :: cur)
             else parseCSVAux (r :: rest2) false cur)
          else parseCSVAux (r :: rest2) true (c :: cur))
      = parseCSVAux (r :: rest2) true (c :: cur)
    exact if_neg h

theorem parse_false_comma (rest cur : JSStr) :
    parseCSVAux (',' :: rest) false cur = cur.reverse :: parseCSVAux rest false [] := rfl

theorem parse_false_quote (rest cur : JSStr) :
    parseCSVAux ('"' :: rest) false cur = parseCSVAux rest true cur := rfl

theorem parse_false_other (c : Char) (rest cur : JSStr) (h1 : c ≠ ',') (h2 : c ≠ '"') :
    parseCSVAux (c :: rest) false cur = parseCSVAux rest false (c :: cur) := by
  simp only [parseCSVAux]
  rw [if_neg h1, if_neg h2]

theorem parse_bare (t : JSStr) (h : ∀ c ∈ t, c ≠ ',' ∧ c ≠ '"') :
    ∀ (rest cur : JSStr),
      parseCSVAux (t ++ rest) false cur = parseCSVAux rest false (t.reverse ++ cur) := by
  induction t with
  | nil => intro rest cur; simp
  | cons c cs ih =>
    intro rest cur
    obtain ⟨hc1, hc2⟩ := h c (List.mem_cons_self c cs)
    have hh : ∀ x ∈ cs, x ≠ ',' ∧ x ≠ '"' := fun x hx => h x (List.mem_cons_of_mem c hx)
    rw [List.cons_append, parse_false_other c _ _ hc1 hc2, ih hh rest (c :: cur)]
    congr 1
    simp

theorem parse_quoted (t : JSStr) :
    ∀ (rest cur : JSStr), (rest = [] ∨ ∃ r2, rest = ',' :: r2) →
      parseCSVAux (csvDouble t ++ '"' :: rest) true cur
        = parseCSVAux rest false (t.reverse ++ cur) := by
  induction t with
  | nil =>
    intro rest cur hrest
    rcases hrest with rfl | ⟨r2, rfl⟩
    · show parseCSVAux ['"'] true cur = parseCSVAux [] false ([].reverse ++ cur)
      rw [parse_true_q_end, parseCSVAux_nil]
      simp
    · show parseCSVAux ('"' :: ',' :: r2) true cur
        = parseCSVAux (',' :: r2) false ([].reverse ++ cur)
      rw [parse_true_q_close ',' r2 cur (by decide)]
      simp
  | cons c cs ih =>
    intro rest cur hrest
    by_cases hc : c = '"'
    · subst hc
      rw [show csvDouble ('"' :: cs) = '"' :: '"' :: csvDouble cs from rfl,
        List.cons_append, List.cons_append, parse_true_qq, ih rest ('"' :: cur) hrest]
      congr 1
      simp
    · rw [show csvDouble (c :: cs) = c :: csvDouble cs by simp [csvDouble, hc],
        List.cons_append, parse_true_other c _ _ hc, ih rest (c :: cur) hrest]
      congr 1
      simp

theorem parse_cell (t : JSStr) (rest cur : JSStr)
    (hrest : rest = [] ∨ ∃ r2, rest = ',' :: r2) :
    parseCSVAux (cellToCSV t ++ rest) false cur = parseCSVAux rest false (t.reverse ++ cur) := by
  unfold cellToCSV
  by_cases hq : (t.contains ',' || t.contains '"') = true
  · rw [if_pos hq]
    have hsh : ('"' :: (csvDouble t ++ ['"'])) ++ rest = '"' :: (csvDouble t ++ '"' :: rest) := by
      simp
    rw [hsh, parse_false_quote]
    exact parse_quoted t rest cur hrest
  · rw [if_neg hq]
    apply parse_bare
    intro x hx
    constructor
    · rintro rfl
      have hcm : List.contains t ',' = true := List.elem_eq_true_of_mem hx
      exact hq (by rw [hcm, Bool.true_or])
    · rintro rfl
      have hcm : List.contains t '"' = true := List.elem_eq_true_of_mem hx
      exact hq (by rw [hcm, Bool.or_true])

theorem csv_round_trip_aux : ∀ (ts : List JSStr) (t : JSStr),
    parseCSVLine (rowToCSV (t :: ts)) = t :: ts := by
  intro ts
  induction ts with
  | nil =>
    intro t
    show parseCSVAux (cellToCSV t) false [] = [t]
    rw [show cellToCSV t = cellToCSV t ++ [] by simp,
      parse_cell t [] [] (Or.inl rfl), parseCSVAux_nil]
    simp
  | cons u us ih =>
    intro t
    show parseCSVAux (cellToCSV t ++ ',' :: rowToCSV (u :: us)) false [] = t :: u :: us
    rw [parse_cell t _ [] (Or.inr ⟨_, rfl⟩), parse_false_comma]
    simp only [List.append_nil, List.reverse_reverse]
    rw [show parseCSVAux (rowToCSV (u :: us)) false [] = parseCSVLine (rowToCSV (u :: us)) from
      rfl, ih u]

/-! ## Claim theorems -/

/-- C1. Restore-on-load characterization: the load-time restore step of
`initializeAutoSave` (app.js 116-119) maps a field's value to the stored
value under its derived key exactly when a stored value exists and the
field's value is empty at load time, and otherwise leaves the value
unchanged — in particular a non-empty (server-populated) value is never
overwritten. `restoreValue` is the code's truthiness test
(`savedValue && !input.value`), `restoreValueSpec` is the spec's wording;
they agree on every input. -/
theorem c1_restore_on_load :
    ∀ (saved : Option String) (current : String),
      restoreValue saved current = restoreValueSpec saved current := by
  intro saved current
  cases saved with
  | none => rfl
  | some s =>
    by_cases hc : current = ""
    · subst hc
      by_cases hs : s = ""
      · subst hs; rfl
      · simp [restoreValue, restoreValueSpec, jsTruthy, hs]
    · simp [restoreValue, restoreValueSpec, jsTruthy, hc]

/-- C2. Clear-on-submit: dispatching a form's `submit` event (validation
listener first, autosave clear listener second, both on the form element)
deletes the stored entry of every field of the form — a subsequent restore
check finds each key absent — regardless of the submission's outcome, in
particular also when the same event was just default-prevented and
propagation-stopped by failed constraint validation. -/
theorem c2_clear_on_submit (formValid : Bool) (fields : List FormField)
    (st : Store) (f : FormField) (hf : f ∈ fields) :
    getItem (dispatchSubmit formValid fields st).2 (autosaveKey f) = none
    ∧ (formValid = false → (dispatchSubmit formValid fields st).1.defaultPrevented = true) := by
  constructor
  · exact getItem_clearAutosave fields st f hf
  · intro hv
    subst hv
    rfl

/-- Witness for C2 at a concrete blocked submission: one field named
`email` whose entry is present before submit and absent after. -/
theorem c2_clear_on_submit_witness :
    (⟨"email", "x"⟩ : FormField) ∈ [(⟨"email", "x"⟩ : FormField)]
    ∧ (getItem (dispatchSubmit false [⟨"email", "x"⟩]
          (setItem emptyStore "autosave_email" "x")).2 (autosaveKey ⟨"email", "x"⟩) = none
       ∧ (false = false → (dispatchSubmit false [⟨"email", "x"⟩]
            (setItem emptyStore "autosave_email" "x")).1.defaultPrevented = true)) :=
  ⟨by decide,
   c2_clear_on_submit false [⟨"email", "x"⟩] (setItem emptyStore "autosave_email" "x")
     ⟨"email", "x"⟩ (by decide)⟩

/-- C3. Filter-pass correctness for a nonempty set of searchable elements:
after `performSearch`, an element is visible (display not `"none"`) iff the
normalized term is empty or its case-folded text contains the term; the
status line shows `Showing visible of total results` when the term is
nonempty and is hidden when the term is empty. -/
theorem c3_filter_pass (input : JSStr) (e : SElem) (es : List SElem) (c : SearchCount) :
    (∀ el ∈ (performSearch input (e :: es) c).1,
        (el.display ≠ "none" ↔ (jsTrim (jsToLower input) = [] ∨
          jsIncludes (jsToLower el.textContent) (jsTrim (jsToLower input)) = true)))
    ∧ visibleCount (performSearch input (e :: es) c).1
        = ((e :: es).filter (elemVisible (jsTrim (jsToLower input)))).length
    ∧ (jsTrim (jsToLower input) ≠ [] →
        (performSearch input (e :: es) c).2
          = { text := countText (visibleCount (performSearch input (e :: es) c).1)
                        ((e :: es).length),
              display := "block" })
    ∧ (jsTrim (jsToLower input) = [] → (performSearch input (e :: es) c).2.display = "none") := by
  rw [performSearch_cons]
  refine ⟨?_, ?_, ?_, ?_⟩
  · intro el hel
    obtain ⟨x, hx, rfl⟩ := List.mem_map.mp hel
    have hiff : elemVisible (jsTrim (jsToLower input)) x = true
        ↔ (jsTrim (jsToLower input) = [] ∨
           jsIncludes (jsToLower x.textContent) (jsTrim (jsToLower input)) = true) := by
      simp [elemVisible, List.isEmpty_iff]
    rw [← hiff]
    cases hv : elemVisible (jsTrim (jsToLower input)) x with
    | true =>
      simp only [hv, if_true]
      simp
    | false =>
      simp only [hv, if_false]
      simp
  · exact visibleCount_map _ _
  · intro hterm
    rw [updateCount_show input _ _ c (fun hi => hterm ((jsTrim_jsToLower_nil_iff input).mpr hi))]
  · intro hterm
    rw [updateCount_hide input _ _ c ((jsTrim_jsToLower_nil_iff input).mp hterm)]

/-- Witness for C3 at a concrete pass: term `a`, elements `cat` (kept
visible) and `dog` (hidden), status `Showing 1 of 2 results`. -/
theorem c3_filter_pass_witness :
    (∀ el ∈ (performSearch "a".data [⟨"cat".data, ""⟩, ⟨"dog".data, ""⟩] ⟨"", ""⟩).1,
        (el.display ≠ "none" ↔ (jsTrim (jsToLower "a".data) = [] ∨
          jsIncludes (jsToLower el.textContent) (jsTrim (jsToLower "a".data)) = true)))
    ∧ visibleCount (performSearch "a".data [⟨"cat".data, ""⟩, ⟨"dog".data, ""⟩] ⟨"", ""⟩).1
        = (([⟨"cat".data, ""⟩, ⟨"dog".data, ""⟩] : List SElem).filter
            (elemVisible (jsTrim (jsToLower "a".data)))).length
    ∧ (jsTrim (jsToLower "a".data) ≠ [] →
        (performSearch "a".data [⟨"cat".data, ""⟩, ⟨"dog".data, ""⟩] ⟨"", ""⟩).2
          = { text := countText
                (visibleCount
                  (performSearch "a".data [⟨"cat".data, ""⟩, ⟨"dog".data, ""⟩] ⟨"", ""⟩).1)
                (([⟨"cat".data, ""⟩, ⟨"dog".data, ""⟩] : List SElem).length),
              display := "block" })
    ∧ (jsTrim (jsToLower "a".data) = [] →
        (performSearch "a".data [⟨"cat".data, ""⟩, ⟨"dog".data, ""⟩] ⟨"", ""⟩).2.display
          = "none") :=
  c3_filter_pass "a".data ⟨"cat".data, ""⟩ [⟨"dog".data, ""⟩] ⟨"", ""⟩

/-- C4. Debounce: events of one burst (each arriving strictly within 300
time units of the previous one, so each cancels the prior pending timer
before it fires) produce exactly one filter pass, namely the final timer's
fire at 300 units after the last event, reading the input text as of the
last event. The single-slot invariant (at most one pending timer per
input) is structural in the model: the fold state holds one `Option`
deadline, and every event overwrites it. -/
theorem c4_debounce (e : DebEvent) (es : List DebEvent)
    (hgap : List.Chain' (fun a b => b.time < a.time + debounceDelay) (e :: es)) :
    runDebounce (e :: es)
      = [((lastEvent e es).time + debounceDelay, (lastEvent e es).value)] := by
  unfold runDebounce
  rw [List.foldl_cons,
    show debStep (none, [], []) e = (some (e.time + debounceDelay), e.value, []) from rfl,
    debounce_foldl es e [] hgap]
  rfl

/-- Witness for C4: three keystrokes at 0, 100, 250 yield the single pass
at 550 reading the last text. -/
theorem c4_debounce_witness :
    List.Chain' (fun a b => b.time < a.time + debounceDelay)
      ([⟨0, "v".data⟩, ⟨100, "ve".data⟩, ⟨250, "veh".data⟩] : List DebEvent)
    ∧ runDebounce [⟨0, "v".data⟩, ⟨100, "ve".data⟩, ⟨250, "veh".data⟩]
        = [(550, "veh".data)] :=
  ⟨by simp [List.chain'_cons', debounceDelay],
   c4_debounce ⟨0, "v".data⟩ [⟨100, "ve".data⟩, ⟨250, "veh".data⟩]
     (by simp [List.chain'_cons', debounceDelay])⟩

/-- C5 counterexample: a field with no name attribute has name `""`, so the
binder derives the key `autosave_` for it and does track it — the load-time
restore writes a stored value into the empty unnamed field, and the change
handler writes an entry for it, contradicting the claim that unnamed
fields are not tracked (no restore, no write). -/
theorem c5_unnamed_counterexample :
    (restoreField (setItem emptyStore "autosave_" "boo") { name := "", value := "" }).value
        = "boo"
    ∧ getItem (persistField emptyStore { name := "", value := "x" }) "autosave_" = some "x" := by
  constructor <;> decide

/-- C5 amended: a field without a name attribute is processed like any
other — its derived key is the shared `autosave_` (empty name), its
changes are persisted under that key and restored from it on reload; no
error is raised (the handlers are total). -/
theorem c5_unnamed_tracked (st : Store) (w : String) :
    autosaveKey { name := "", value := w } = "autosave_"
    ∧ getItem (persistField st { name := "", value := w }) "autosave_" = some w
    ∧ (restoreField (persistField st { name := "", value := w })
        { name := "", value := "" }).value = w := by
  refine ⟨rfl, ?_, ?_⟩
  · exact getItem_setItem_self st _ w
  · show restoreValue (getItem (setItem st ("autosave_" ++ "") w) ("autosave_" ++ "")) "" = w
    rw [getItem_setItem_self, restoreValue_some_empty]

/-- C6 counterexample: the persist-on-change handler (app.js 122-124) wraps
`localStorage.setItem` in no try/catch, so with a failing store (quota
exceeded) the write's exception escapes the handler instead of being
swallowed inside it. -/
theorem c6_swallow_counterexample :
    autosaveInputHandler { data := emptyStore, failing := true } { name := "email", value := "x" }
      = .error "QuotaExceededError" := rfl

/-- C6 amended: a failing store write during persist-on-change raises out
of the change handler (no local catch); the uncaught exception reaches the
page-wide error guard, which shows the generic error notification; the
store is unchanged and the page keeps running, the handler simply failing
again on later changes rather than being disabled. -/
theorem c6_write_failure_escapes (d : Store) (f : FormField) :
    autosaveInputHandler { data := d, failing := true } f = .error "QuotaExceededError"
    ∧ pageInputEvent { data := d, failing := true } f
        = ({ data := d, failing := true }, some errorNotificationText) :=
  ⟨rfl, rfl⟩

/-- C7. Persist/restore round-trip: for a field with non-empty name,
writing its value through the change handler and then running the restore
step on an empty same-named field yields exactly the written value. -/
theorem c7_round_trip (st : Store) (f : FormField) (h : f.name ≠ "") :
    (restoreField (persistField st f) { name := f.name, value := "" }).value = f.value := by
  show restoreValue
      (getItem (setItem st (autosaveKey f) f.value) (autosaveKey { name := f.name, value := "" }))
      "" = f.value
  rw [show autosaveKey { name := f.name, value := "" } = autosaveKey f from rfl,
    getItem_setItem_self, restoreValue_some_empty]

/-- Witness for C7 at a concrete field. -/
theorem c7_round_trip_witness :
    ("odometer" : String) ≠ ""
    ∧ (restoreField (persistField emptyStore ⟨"odometer", "12345"⟩)
        { name := "odometer", value := "" }).value = "12345" :=
  ⟨by decide, c7_round_trip emptyStore ⟨"odometer", "12345"⟩ (by decide)⟩

/-- C8. Key collision across forms: two same-named fields (one per form)
derive the same store key, so a value written through one form's field is
restored into the other form's empty same-named field on reload. -/
theorem c8_key_collision (st : Store) (name va : String) :
    autosaveKey { name := name, value := va } = autosaveKey { name := name, value := "" }
    ∧ (restoreField (persistField st { name := name, value := va })
        { name := name, value := "" }).value = va := by
  refine ⟨rfl, ?_⟩
  show restoreValue
      (getItem (setItem st (autosaveKey { name := name, value := va })
        (FormField.mk name va).value)
       (autosaveKey { name := name, value := "" })) "" = va
  rw [show autosaveKey { name := name, value := "" }
      = autosaveKey { name := name, value := va } from rfl,
    getItem_setItem_self, restoreValue_some_empty]

/-- C9. CSV export escaping: a row of cells serializes each field as the
trimmed text, quoted with doubled quotes exactly when it contains a comma
or quote, and a standard CSV reader parses any serialized row back to the
original cell texts; at the spec's concrete cells `a,b` and `say "hi"` the
line and its doubled-quote escaping are as stated. -/
theorem c9_csv_export :
    (∀ (t : JSStr) (ts : List JSStr), parseCSVLine (rowToCSV (t :: ts)) = t :: ts)
    ∧ exportRowToCSV ["a,b".data, "say \"hi\"".data] = "\"a,b\",\"say \"\"hi\"\"\"".data
    ∧ parseCSVLine "\"a,b\",\"say \"\"hi\"\"\"".data = ["a,b".data, "say \"hi\"".data]
    ∧ exportRowToCSV ["  plain ".data] = "plain".data :=
  ⟨fun t ts => csv_round_trip_aux ts t, by decide, by decide, by decide⟩

/-- C10. Table sort only reorders: for every body, column index and mode,
the rows after `sortTable` are a permutation of the rows before it — none
created, dropped or duplicated. -/
theorem c10_sort_permutes :
    ∀ (rows : List TableRow) (i : Nat) (isNumeric : Bool),
      List.Perm (sortTable rows i isNumeric) rows :=
  fun rows i isNumeric => List.mergeSort_perm rows (rowLe isNumeric i)

end VehicleTracker
